import Mathlib

/-
  Verification development for the deploy-bun repository.

  The model below is a shallow embedding of src/server.ts.  The server keeps
  two module-level variables (currentAppServer, currentDeploymentHash), a
  state file .state.json under the deployments root, and one directory per
  uploaded version.  Filesystem and process effects are made explicit:
  the filesystem is a map from version hash to the list of extracted file
  names, the set of bound application servers is tracked in a list, and the
  outcomes of external operations that can raise (Bun.write, rm, tar,
  Server.stop, dynamic import, Bun.serve, the ledger write) are supplied by
  an Env record.  Thrown exceptions are modelled by Except, where the error
  payload is the server state at the moment of the throw, because the catch
  block in handleUpload observes exactly that state.
-/

namespace DeployBun

/-- Record persisted in .state.json (server.ts lines 12 to 17). -/
structure DeploymentState where
  hash : String
  port : Int
  entrypoint : String
  timestamp : String
deriving DecidableEq, Repr

/-- Content of the state file on disk: a parseable record or corrupt text
(JSON.parse failure in loadDeploymentState, server.ts line 51). -/
inductive LedgerFile
  | valid (s : DeploymentState)
  | corrupt
deriving DecidableEq, Repr

/-- Handle to one running Bun application server, as started by startApp for
a given deployment hash on a given port (server.ts line 95). -/
structure AppInstance where
  hash : String
  port : Int
deriving DecidableEq, Repr

/-- State of the deploy server process plus the parts of the world it
mutates.  currentAppServer and currentDeploymentHash are the module-level
variables of server.ts (lines 24 and 25); ledger is the content of
.state.json (none when the file is absent); dirs maps a version hash to the
file names extracted under deployments/hash (none when no such directory
exists); tmp is the set of temporary archive files under /tmp; running lists
every application server currently bound to its port, including servers
whose handle was lost without being stopped. -/
structure SrvState where
  currentAppServer : Option AppInstance
  currentDeploymentHash : Option String
  ledger : Option LedgerFile
  dirs : String → Option (List String)
  tmp : List String
  running : List AppInstance

/-- Outcomes of the external operations the server invokes, plus the clock
value used for the timestamp written by saveDeploymentState.  Each flag says
whether the corresponding call succeeds or raises. -/
structure Env where
  tmpWriteOk : Bool
  rmDirOk : Bool
  mkdirOk : Bool
  extractOk : Bool
  rmTmpOk : Bool
  stopFails : Bool
  loadOk : Bool
  bindFails : Bool
  persistOk : Bool
  now : String
deriving DecidableEq, Repr

/-- Model of existsSync on a deployment directory. -/
def dirExists (dirs : String → Option (List String)) (h : String) : Bool :=
  (dirs h).isSome

/-- File names currently under deployments/h, empty when the directory is
absent. -/
def dirContents (dirs : String → Option (List String)) (h : String) : List String :=
  (dirs h).getD []

/-- Model of the whitespace skipped by the JS parseInt builtin. -/
def jsSpace (c : Char) : Bool :=
  c = ' ' || c = '\t' || c = '\n' || c = '\r'

/-- Hexadecimal digit test for the parseInt model. -/
def isHexDigit (c : Char) : Bool :=
  c.isDigit || ('a' ≤ c && c ≤ 'f') || ('A' ≤ c && c ≤ 'F')

/-- Numeric value of a hexadecimal digit. -/
def hexVal (c : Char) : Nat :=
  if c.isDigit then c.toNat - '0'.toNat
  else if 'a' ≤ c && c ≤ 'f' then c.toNat - 'a'.toNat + 10
  else c.toNat - 'A'.toNat + 10

/-- Value of a digit string in the given radix. -/
def digitsVal (radix : Nat) (cs : List Char) : Nat :=
  cs.foldl (fun acc c => acc * radix + hexVal c) 0

/-- Unsigned part of the JS parseInt builtin with no radix argument: a 0x or
0X prefix selects base 16, otherwise the longest leading run of decimal
digits is taken; no digits means NaN. -/
def parseUnsigned (cs : List Char) : Option Nat :=
  match cs with
  | '0' :: 'x' :: rest =>
      let ds := rest.takeWhile isHexDigit
      if ds.isEmpty then none else some (digitsVal 16 ds)
  | '0' :: 'X' :: rest =>
      let ds := rest.takeWhile isHexDigit
      if ds.isEmpty then none else some (digitsVal 16 ds)
  | _ =>
      let ds := cs.takeWhile Char.isDigit
      if ds.isEmpty then none else some (digitsVal 10 ds)

/-- Model of the JS parseInt builtin used at server.ts line 133; none stands
for NaN, which the code rejects with isNaN at line 134. -/
def jsParseInt (s : String) : Option Int :=
  match s.data.dropWhile jsSpace with
  | '-' :: rest => (parseUnsigned rest).map (fun n => -(n : Int))
  | '+' :: rest => (parseUnsigned rest).map (fun n => (n : Int))
  | rest => (parseUnsigned rest).map (fun n => (n : Int))

/-- Truthiness test applied to a header value at server.ts line 128: a
missing header (null) and the empty string are both falsy. -/
def jsFalsy (v : Option String) : Bool :=
  match v with
  | none => true
  | some s => s.isEmpty

/-- The three deploy headers read at server.ts lines 119 to 121; none models
headers.get returning null. -/
structure Headers where
  deployHash : Option String
  deployPort : Option String
  deployEntrypoint : Option String
deriving DecidableEq, Repr

/-- Response of handleUpload: 400 with a plain-text reason, 200 with the
JSON success body carrying hash and port, or 500 with the JSON error body. -/
inductive UploadResponse
  | badRequest (reason : String)
  | ok (hash : String) (port : Int)
  | serverError
deriving DecidableEq, Repr

/-- HTTP status code of an upload response. -/
def UploadResponse.status : UploadResponse → Nat
  | .badRequest _ => 400
  | .ok _ _ => 200
  | .serverError => 500

/-- Path of the temporary archive written at server.ts line 140. -/
def tmpName (hash : String) : String :=
  "/tmp/deploy-" ++ hash ++ ".tar.gz"

/-- Model of saveDeploymentState (server.ts lines 28 to 41): writes the
descriptor with a timestamp taken at save time as the sole ledger record.
The Bun.write call can raise (for example on a full disk), in which case the
ledger is left as it was. -/
def saveDeploymentState (env : Env) (st : SrvState) (hash : String) (port : Int)
    (entrypoint : String) : Except SrvState SrvState :=
  if !env.persistOk then .error st
  else .ok { st with ledger := some (.valid ⟨hash, port, entrypoint, env.now⟩) }

/-- Model of loadDeploymentState (server.ts lines 44 to 62): none when the
state file is absent or its content fails to parse; the parse failure is
caught and logged, never propagated. -/
def loadDeploymentState (st : SrvState) : Option DeploymentState :=
  match st.ledger with
  | none => none
  | some .corrupt => none
  | some (.valid s) => some s

/-- Model of stopCurrentApp (server.ts lines 64 to 74).  When a handle is
present the code calls currentAppServer.stop() and only then clears the
variable; a raising stop therefore leaves the handle in place and the server
bound, and the exception propagates, because stopCurrentApp has no catch. -/
def stopCurrentApp (env : Env) (st : SrvState) : Except SrvState SrvState :=
  match st.currentAppServer with
  | some inst =>
      if env.stopFails then .error st
      else .ok { st with currentAppServer := none, running := st.running.erase inst }
  | none => .ok st

/-- Model of startApp (server.ts lines 76 to 110).  In order: the entrypoint
existence check (line 85, throw), the dynamic import (line 92, AppLoadError),
Bun.serve binding the port (line 95, BindError); only then is
currentAppServer assigned (line 95), currentDeploymentHash set (line 104)
and the state saved (line 109).  An error exits with the state exactly as it
was at the moment of the throw. -/
def startApp (env : Env) (st : SrvState) (hash : String) (port : Int)
    (entrypoint : String) : Except SrvState SrvState :=
  if !(dirContents st.dirs hash).contains entrypoint then .error st
  else if !env.loadOk then .error st
  else if env.bindFails then .error st
  else
    saveDeploymentState env
      { st with currentAppServer := some ⟨hash, port⟩,
                running := ⟨hash, port⟩ :: st.running,
                currentDeploymentHash := some hash }
      hash port entrypoint

/-- Model of the artifact materialization block of handleUpload (server.ts
lines 140 to 169): write the temporary archive, remove an existing directory
for the same hash, create the directory, extract the archive into it (tar
adds files, it does not clear), and remove the temporary archive.  body is
the list of file names contained in the uploaded archive. -/
def materialize (env : Env) (st : SrvState) (hash : String) (body : List String) :
    Except SrvState SrvState :=
  if !env.tmpWriteOk then .error st else
  let s1 : SrvState := { st with tmp := tmpName hash :: st.tmp }
  if dirExists s1.dirs hash && !env.rmDirOk then .error s1 else
  let s2 : SrvState := { s1 with
    dirs := if dirExists s1.dirs hash then Function.update s1.dirs hash none else s1.dirs }
  if !env.mkdirOk then .error s2 else
  let s3 : SrvState := { s2 with
    dirs := if dirExists s2.dirs hash then s2.dirs
            else Function.update s2.dirs hash (some []) }
  if !env.extractOk then .error s3 else
  let s4 : SrvState := { s3 with
    dirs := Function.update s3.dirs hash (some (dirContents s3.dirs hash ++ body)) }
  if !env.rmTmpOk then .error s4 else
  .ok { s4 with tmp := s4.tmp.erase (tmpName hash) }

/-- Model of handleUpload (server.ts lines 112 to 210): header validation,
then materialize, stopCurrentApp and startApp in sequence inside the try
block; any raise is caught and answered with the 500 body, leaving the state
as it was at the throw. -/
def handleUpload (env : Env) (st : SrvState) (hdrs : Headers) (body : List String) :
    UploadResponse × SrvState :=
  if jsFalsy hdrs.deployHash || jsFalsy hdrs.deployPort || jsFalsy hdrs.deployEntrypoint then
    (.badRequest "缺少必要的部署信息", st)
  else
    match jsParseInt (hdrs.deployPort.getD "") with
    | none => (.badRequest "无效的端口号", st)
    | some appPort =>
      match materialize env st (hdrs.deployHash.getD "") body with
      | .error s => (.serverError, s)
      | .ok s1 =>
        match stopCurrentApp env s1 with
        | .error s => (.serverError, s)
        | .ok s2 =>
          match startApp env s2 (hdrs.deployHash.getD "") appPort
              (hdrs.deployEntrypoint.getD "") with
          | .error s => (.serverError, s)
          | .ok s3 => (.ok (hdrs.deployHash.getD "") appPort, s3)

/-- Model of the recovery block run at startup (server.ts lines 257 to 285):
load the ledger; when a record exists and its artifact directory is present,
call startApp with the recorded descriptor, catching and logging any raise;
otherwise do nothing.  The function is total: no recovery outcome escapes as
an error. -/
def recover (env : Env) (st : SrvState) : SrvState :=
  match loadDeploymentState st with
  | none => st
  | some last =>
    if dirExists st.dirs last.hash then
      match startApp env st last.hash last.port last.entrypoint with
      | .ok s => s
      | .error s => s
    else st

/-- Body of the GET /status response (server.ts lines 229 to 239), restricted
to the fields the model tracks. -/
structure StatusBody where
  currentDeployment : Option String
  uploadPort : Nat
deriving DecidableEq, Repr

/-- Model of the GET /status handler. -/
def statusResponse (st : SrvState) : StatusBody :=
  ⟨st.currentDeploymentHash, 7899⟩

/-- State reached by either outcome of a fallible operation; the catch block
of handleUpload observes exactly the error component. -/
def exceptState : Except SrvState SrvState → SrvState
  | .ok s => s
  | .error s => s

/-- The running servers are exactly the one held in the slot.  This is the
single-active-instance invariant; it holds at boot and is preserved by every
sequential operation of the server. -/
def singleInstanceInv (st : SrvState) : Prop :=
  st.running = st.currentAppServer.toList

/-- State of a freshly started server process before recovery: no instance,
no current hash, with whatever the disk holds. -/
def bootState (ledger : Option LedgerFile) (dirs : String → Option (List String)) :
    SrvState :=
  ⟨none, none, ledger, dirs, [], []⟩

/-- Atomic steps of the deploy critical section, used to study interleavings
of two concurrent uploads.  handleUpload awaits between stopCurrentApp and
startApp (server.ts lines 172 and 175), so another request handler can run
between the two steps. -/
inductive DeployAct
  | stopAct
  | startAct (hash : String) (port : Int)
deriving DecidableEq, Repr

/-- Effect of one atomic step on the slot and the set of bound servers,
mirroring stopCurrentApp (lines 64 to 74, stop assumed not to raise) and the
success path of startApp (lines 95 to 104). -/
def execAct (st : SrvState) : DeployAct → SrvState
  | .stopAct =>
    match st.currentAppServer with
    | some inst => { st with currentAppServer := none, running := st.running.erase inst }
    | none => st
  | .startAct h p =>
    { st with currentAppServer := some ⟨h, p⟩,
              running := ⟨h, p⟩ :: st.running,
              currentDeploymentHash := some h }

/-- Run a schedule of atomic steps. -/
def runActs (st : SrvState) (l : List DeployAct) : SrvState :=
  l.foldl execAct st

/-- Stop-then-start critical section of one upload of hash h on port p. -/
def uploadCritical (h : String) (p : Int) : List DeployAct :=
  [.stopAct, .startAct h p]

/-- Interleavings of two action sequences, the schedules an unsynchronized
pair of concurrent uploads can produce. -/
inductive Interleave : List DeployAct → List DeployAct → List DeployAct → Prop
  | nil : Interleave [] [] []
  | left : ∀ (a : DeployAct) (l r t : List DeployAct),
      Interleave l r t → Interleave (a :: l) r (a :: t)
  | right : ∀ (a : DeployAct) (l r t : List DeployAct),
      Interleave l r t → Interleave l (a :: r) (a :: t)

/-- Environment in which every external operation succeeds. -/
def env0 : Env :=
  ⟨true, true, true, true, true, false, true, false, true, "2025-01-02T00:00:00.000Z"⟩

/-- Environment in which Server.stop raises and everything else succeeds. -/
def envStopFail : Env := { env0 with stopFails := true }

/-- Environment in which the ledger write raises and everything else
succeeds. -/
def envPersistFail : Env := { env0 with persistOk := false }

/-- Environment in which Bun.serve raises and everything else succeeds. -/
def envBindFail : Env := { env0 with bindFails := true }

/-- Empty deployments root. -/
def dirs0 : String → Option (List String) := fun _ => none

/-- Fresh server state: nothing running, no ledger, empty disk. -/
def st0 : SrvState := bootState none dirs0

/-- A previously started instance used by the scenario fixtures. -/
def inst0 : AppInstance := ⟨"v0", 3000⟩

/-- Server state with instance v0 active and its descriptor persisted. -/
def stActive : SrvState :=
  ⟨some inst0, some "v0", some (.valid ⟨"v0", 3000, "index.js", "2025-01-01T00:00:00.000Z"⟩),
   fun h => if h = "v0" then some ["index.js"] else none, [], [inst0]⟩

/-- Well-formed deploy headers for version v1 on port 3000. -/
def hdrs1 : Headers := ⟨some "v1", some "3000", some "index.js"⟩

/-- Freshly restarted server whose disk still holds the v0 artifact and a
valid ledger record for it. -/
def stBoot : SrvState :=
  bootState (some (.valid ⟨"v0", 3000, "index.js", "2025-01-01T00:00:00.000Z"⟩))
    (fun h => if h = "v0" then some ["index.js"] else none)


lemma materialize_success (env : Env) (st : SrvState) (h : String) (body : List String)
    (h1 : env.tmpWriteOk = true) (h2 : env.rmDirOk = true) (h3 : env.mkdirOk = true)
    (h4 : env.extractOk = true) (h5 : env.rmTmpOk = true) :
    materialize env st h body =
      .ok { st with dirs := Function.update st.dirs h (some body) } := by
  unfold materialize
  by_cases hd : dirExists st.dirs h
  · simp only [dirExists] at hd
    simp [h1, h2, h3, h4, h5, hd, dirExists, dirContents, Function.update_same,
      Function.update_idem, List.erase_cons_head]
  · have hd2 : st.dirs h = none := by
      cases hval : st.dirs h with
      | none => rfl
      | some v => exact absurd (by simp [dirExists, hval]) hd
    simp [h1, h2, h3, h4, h5, hd2, dirExists, dirContents, Function.update_same,
      Function.update_idem, List.erase_cons_head]

lemma stop_success_inv (env : Env) (st : SrvState) (hf : env.stopFails = false)
    (hinv : singleInstanceInv st) :
    stopCurrentApp env st = .ok { st with currentAppServer := none, running := [] } := by
  unfold singleInstanceInv at hinv
  unfold stopCurrentApp
  cases hc : st.currentAppServer with
  | none =>
    cases st
    simp_all
  | some inst =>
    rw [hc] at hinv
    simp [hf, hinv, List.erase_cons_head]

lemma startApp_success (env : Env) (st : SrvState) (h : String) (p : Int) (e : String)
    (hentry : (dirContents st.dirs h).contains e = true)
    (hload : env.loadOk = true) (hbind : env.bindFails = false)
    (hpers : env.persistOk = true) :
    startApp env st h p e =
      .ok { st with currentAppServer := some ⟨h, p⟩,
                    running := ⟨h, p⟩ :: st.running,
                    currentDeploymentHash := some h,
                    ledger := some (.valid ⟨h, p, e, env.now⟩) } := by
  unfold startApp saveDeploymentState
  rw [hentry, hload, hbind, hpers]
  simp

lemma startApp_error_of (env : Env) (st : SrvState) (h : String) (p : Int) (e : String)
    (hfail : (dirContents st.dirs h).contains e = false ∨ env.loadOk = false ∨
      env.bindFails = true) :
    startApp env st h p e = .error st := by
  unfold startApp
  rcases hfail with hf | hf | hf
  · rw [hf]; simp
  · by_cases hc : (dirContents st.dirs h).contains e = true
    · rw [hc, hf]; simp
    · rw [Bool.not_eq_true] at hc
      rw [hc]; simp
  · by_cases hc : (dirContents st.dirs h).contains e = true
    · by_cases hl : env.loadOk = true
      · rw [hc, hl, hf]; simp
      · rw [Bool.not_eq_true] at hl
        rw [hc, hl]; simp
    · rw [Bool.not_eq_true] at hc
      rw [hc]; simp

lemma materialize_frame (env : Env) (st : SrvState) (h : String) (body : List String) :
    (exceptState (materialize env st h body)).currentAppServer = st.currentAppServer ∧
    (exceptState (materialize env st h body)).currentDeploymentHash = st.currentDeploymentHash ∧
    (exceptState (materialize env st h body)).ledger = st.ledger ∧
    (exceptState (materialize env st h body)).running = st.running := by
  unfold materialize
  by_cases h1 : env.tmpWriteOk <;> by_cases h2 : env.rmDirOk <;> by_cases h3 : env.mkdirOk <;>
    by_cases h4 : env.extractOk <;> by_cases h5 : env.rmTmpOk <;>
    by_cases hd : dirExists st.dirs h <;>
    simp [h1, h2, h3, h4, h5, hd, exceptState]

lemma stop_frame (env : Env) (st : SrvState) :
    (exceptState (stopCurrentApp env st)).currentDeploymentHash = st.currentDeploymentHash ∧
    (exceptState (stopCurrentApp env st)).ledger = st.ledger ∧
    (exceptState (stopCurrentApp env st)).dirs = st.dirs := by
  unfold stopCurrentApp
  cases hc : st.currentAppServer <;> by_cases hf : env.stopFails <;>
    simp [hc, hf, exceptState]

lemma startApp_error_state (env : Env) (st : SrvState) (h : String) (p : Int) (e : String)
    (s : SrvState) (he : startApp env st h p e = .error s) :
    s.ledger = st.ledger ∧ s.dirs = st.dirs ∧
    (s.currentAppServer = st.currentAppServer ∨ s.currentAppServer = some ⟨h, p⟩) ∧
    (s.currentDeploymentHash = st.currentDeploymentHash ∨ s.currentDeploymentHash = some h) := by
  unfold startApp saveDeploymentState at he
  repeat' split at he
  all_goals simp_all
  all_goals (cases he; simp)

lemma startApp_ok_inv (env : Env) (st : SrvState) (h : String) (p : Int) (e : String)
    (s : SrvState) (hok : startApp env st h p e = .ok s) :
    s = { st with
          currentAppServer := some ⟨h, p⟩,
          running := ⟨h, p⟩ :: st.running,
          currentDeploymentHash := some h,
          ledger := some (.valid ⟨h, p, e, env.now⟩) } := by
  unfold startApp saveDeploymentState at hok
  repeat' split at hok
  all_goals simp_all

lemma stop_ok_inv (env : Env) (st : SrvState) (s : SrvState)
    (hinv : singleInstanceInv st) (hok : stopCurrentApp env st = .ok s) :
    s = { st with currentAppServer := none, running := [] } := by
  unfold singleInstanceInv at hinv
  cases hc : st.currentAppServer with
  | none =>
    simp only [stopCurrentApp, hc] at hok
    rw [hc] at hinv
    simp only [Except.ok.injEq] at hok
    subst hok
    cases st
    simp_all
  | some inst =>
    simp only [stopCurrentApp, hc] at hok
    rw [hc] at hinv
    split at hok
    · exact Except.noConfusion hok
    · simp only [Except.ok.injEq] at hok
      subst hok
      simp [hinv, List.erase_cons_head]

lemma upload_ok_inv (env : Env) (st : SrvState) (hdrs : Headers) (body : List String)
    (h : String) (p : Int) (resp : UploadResponse) (st2 : SrvState)
    (hinv : singleInstanceInv st)
    (hup : handleUpload env st hdrs body = (resp, st2)) (hres : resp = .ok h p) :
    st2.currentAppServer = some ⟨h, p⟩ ∧ st2.running = [⟨h, p⟩] ∧
    st2.ledger = some (.valid ⟨h, p, hdrs.deployEntrypoint.getD "", env.now⟩) ∧
    hdrs.deployHash.getD "" = h ∧ jsParseInt (hdrs.deployPort.getD "") = some p := by
  subst hres
  unfold handleUpload at hup
  split at hup
  · exact UploadResponse.noConfusion (congrArg Prod.fst hup)
  · split at hup
    · exact UploadResponse.noConfusion (congrArg Prod.fst hup)
    · rename_i appPort hport
      split at hup
      · exact UploadResponse.noConfusion (congrArg Prod.fst hup)
      · rename_i s1 hmat
        split at hup
        · exact UploadResponse.noConfusion (congrArg Prod.fst hup)
        · rename_i s2 hstop
          split at hup
          · exact UploadResponse.noConfusion (congrArg Prod.fst hup)
          · rename_i s3 hstart
            simp only [Prod.mk.injEq, UploadResponse.ok.injEq] at hup
            obtain ⟨⟨hhash, hpt⟩, hst2⟩ := hup
            have hframe := materialize_frame env st (hdrs.deployHash.getD "") body
            rw [hmat] at hframe
            simp only [exceptState] at hframe
            have hinv1 : singleInstanceInv s1 := by
              unfold singleInstanceInv
              rw [hframe.2.2.2, hframe.1]
              exact hinv
            have hs2 := stop_ok_inv env s1 s2 hinv1 hstop
            have hs3 := startApp_ok_inv env s2 _ _ _ s3 hstart
            subst hst2 hhash hpt
            subst hs3
            subst hs2
            simp [hport]
  
lemma upload_error_ledger (env : Env) (st : SrvState) (hdrs : Headers) (body : List String)
    (resp : UploadResponse) (st2 : SrvState)
    (hup : handleUpload env st hdrs body = (resp, st2)) (hres : resp = .serverError) :
    st2.ledger = st.ledger := by
  subst hres
  unfold handleUpload at hup
  split at hup
  · exact UploadResponse.noConfusion (congrArg Prod.fst hup)
  · split at hup
    · exact UploadResponse.noConfusion (congrArg Prod.fst hup)
    · rename_i appPort hport
      split at hup
      · rename_i s hmat
        have hframe := materialize_frame env st (hdrs.deployHash.getD "") body
        rw [hmat] at hframe
        simp only [exceptState] at hframe
        have hs : s = st2 := congrArg Prod.snd hup
        rw [← hs]
        exact hframe.2.2.1
      · rename_i s1 hmat
        have hframe := materialize_frame env st (hdrs.deployHash.getD "") body
        rw [hmat] at hframe
        simp only [exceptState] at hframe
        split at hup
        · rename_i s hstop
          have hsf := stop_frame env s1
          rw [hstop] at hsf
          simp only [exceptState] at hsf
          have hs : s = st2 := congrArg Prod.snd hup
          rw [← hs, hsf.2.1]
          exact hframe.2.2.1
        · rename_i s2 hstop
          have hsf := stop_frame env s1
          rw [hstop] at hsf
          simp only [exceptState] at hsf
          split at hup
          · rename_i s hstart
            have hse := startApp_error_state env s2 _ _ _ s hstart
            have hs : s = st2 := congrArg Prod.snd hup
            rw [← hs, hse.1, hsf.2.1]
            exact hframe.2.2.1
          · exact UploadResponse.noConfusion (congrArg Prod.fst hup)

lemma upload_hash_none_mono (env : Env) (st : SrvState) (hdrs : Headers) (body : List String)
    (resp : UploadResponse) (st2 : SrvState)
    (hup : handleUpload env st hdrs body = (resp, st2))
    (hnone : st2.currentDeploymentHash = none) :
    st.currentDeploymentHash = none := by
  unfold handleUpload at hup
  split at hup
  · have hs : st = st2 := congrArg Prod.snd hup
    rw [hs]; exact hnone
  · split at hup
    · have hs : st = st2 := congrArg Prod.snd hup
      rw [hs]; exact hnone
    · rename_i appPort hport
      split at hup
      · rename_i s hmat
        have hframe := materialize_frame env st (hdrs.deployHash.getD "") body
        rw [hmat] at hframe
        simp only [exceptState] at hframe
        have hs : s = st2 := congrArg Prod.snd hup
        rw [← hframe.2.1, hs]
        exact hnone
      · rename_i s1 hmat
        have hframe := materialize_frame env st (hdrs.deployHash.getD "") body
        rw [hmat] at hframe
        simp only [exceptState] at hframe
        split at hup
        · rename_i s hstop
          have hsf := stop_frame env s1
          rw [hstop] at hsf
          simp only [exceptState] at hsf
          have hs : s = st2 := congrArg Prod.snd hup
          rw [← hframe.2.1, ← hsf.1, hs]
          exact hnone
        · rename_i s2 hstop
          have hsf := stop_frame env s1
          rw [hstop] at hsf
          simp only [exceptState] at hsf
          split at hup
          · rename_i s hstart
            have hse := startApp_error_state env s2 _ _ _ s hstart
            have hs : s = st2 := congrArg Prod.snd hup
            rcases hse.2.2.2 with hcase | hcase
            · rw [← hframe.2.1, ← hsf.1, ← hcase, hs]
              exact hnone
            · rw [hs, hnone] at hcase
              exact Option.noConfusion hcase
          · rename_i s3 hstart
            have hse := startApp_ok_inv env s2 _ _ _ s3 hstart
            have hs : s3 = st2 := congrArg Prod.snd hup
            rw [hse] at hs
            rw [← hs] at hnone
            simp at hnone

lemma jsFalsy_some_ne (s : String) (h : s ≠ "") : jsFalsy (some s) = false := by
  simp only [jsFalsy]
  cases he : s.isEmpty
  · rfl
  · exact absurd ((String.isEmpty_iff s).mp he) h

lemma stop_success_any (env : Env) (st : SrvState) (hf : env.stopFails = false) :
    ∃ r, stopCurrentApp env st = .ok { st with currentAppServer := none, running := r } := by
  cases hc : st.currentAppServer with
  | none =>
    refine ⟨st.running, ?_⟩
    simp only [stopCurrentApp, hc]
    cases st
    simp_all
  | some inst =>
    exact ⟨st.running.erase inst, by simp [stopCurrentApp, hc, hf]⟩

lemma handleUpload_steps (env : Env) (st : SrvState) (hs pt ep : String)
    (p : Int) (body : List String)
    (hh : hs ≠ "") (hpt : pt ≠ "") (hep : ep ≠ "")
    (hport : jsParseInt pt = some p) :
    handleUpload env st ⟨some hs, some pt, some ep⟩ body =
      match materialize env st hs body with
      | .error s => (.serverError, s)
      | .ok s1 =>
        match stopCurrentApp env s1 with
        | .error s => (.serverError, s)
        | .ok s2 =>
          match startApp env s2 hs p ep with
          | .error s => (.serverError, s)
          | .ok s3 => (.ok hs p, s3) := by
  simp only [handleUpload, jsFalsy_some_ne hs hh, jsFalsy_some_ne pt hpt,
    jsFalsy_some_ne ep hep, Bool.or_self, Bool.or_false, Bool.false_or,
    Option.getD_some, hport, Bool.false_eq_true, if_false]

lemma upload_start_failure (env : Env) (st : SrvState) (hs pt ep : String)
    (p : Int) (body : List String)
    (hh : hs ≠ "") (hpt : pt ≠ "") (hep : ep ≠ "")
    (hport : jsParseInt pt = some p)
    (h1 : env.tmpWriteOk = true) (h2 : env.rmDirOk = true) (h3 : env.mkdirOk = true)
    (h4 : env.extractOk = true) (h5 : env.rmTmpOk = true)
    (h6 : env.stopFails = false)
    (hstart : body.contains ep = false ∨ env.loadOk = false ∨ env.bindFails = true) :
    (handleUpload env st ⟨some hs, some pt, some ep⟩ body).1 = .serverError ∧
    (handleUpload env st ⟨some hs, some pt, some ep⟩ body).2.currentAppServer = none ∧
    (handleUpload env st ⟨some hs, some pt, some ep⟩ body).2.ledger = st.ledger ∧
    (handleUpload env st ⟨some hs, some pt, some ep⟩ body).2.currentDeploymentHash =
      st.currentDeploymentHash := by
  have hsteps := handleUpload_steps env st hs pt ep p body hh hpt hep hport
  have hms := materialize_success env st hs body h1 h2 h3 h4 h5
  obtain ⟨r, hstop⟩ := stop_success_any env
    { st with dirs := Function.update st.dirs hs (some body) } h6
  have hfail : (dirContents ({ st with
      dirs := Function.update st.dirs hs (some body),
      currentAppServer := none,
      running := r } : SrvState).dirs hs).contains ep = false ∨
      env.loadOk = false ∨ env.bindFails = true := by
    rcases hstart with hf | hf | hf
    · left
      show (dirContents (Function.update st.dirs hs (some body)) hs).contains ep = false
      have hc : dirContents (Function.update st.dirs hs (some body)) hs = body := by
        simp [dirContents, Function.update_same]
      rw [hc]
      exact hf
    · right; left; exact hf
    · right; right; exact hf
  have hstart2 := startApp_error_of env _ hs p ep hfail
  rw [hsteps]
  simp only [hms, hstop, hstart2]
  simp

/-- C1: for every upload request with valid headers (all three present and
the port parsing to an integer) in which materialize, stop and start all
succeed, the response is the 200 success body carrying the hash and the
parsed port, exactly one Active Instance exists afterwards, it is bound to
the parsed port, and the persisted Ledger record carries the same hash and
port as the response together with the request entrypoint. -/
theorem c1_deploy_success (env : Env) (st : SrvState) (hs pt ep : String)
    (p : Int) (body : List String)
    (hinv : singleInstanceInv st)
    (hh : hs ≠ "") (hpt : pt ≠ "") (hep : ep ≠ "")
    (hport : jsParseInt pt = some p)
    (h1 : env.tmpWriteOk = true) (h2 : env.rmDirOk = true) (h3 : env.mkdirOk = true)
    (h4 : env.extractOk = true) (h5 : env.rmTmpOk = true)
    (h6 : env.stopFails = false) (h7 : env.loadOk = true) (h8 : env.bindFails = false)
    (h9 : env.persistOk = true)
    (hentry : body.contains ep = true) :
    (handleUpload env st ⟨some hs, some pt, some ep⟩ body).1 = UploadResponse.ok hs p ∧
    (handleUpload env st ⟨some hs, some pt, some ep⟩ body).2.currentAppServer =
      some ⟨hs, p⟩ ∧
    (handleUpload env st ⟨some hs, some pt, some ep⟩ body).2.running = [⟨hs, p⟩] ∧
    (handleUpload env st ⟨some hs, some pt, some ep⟩ body).2.ledger =
      some (.valid ⟨hs, p, ep, env.now⟩) := by
  have hsteps := handleUpload_steps env st hs pt ep p body hh hpt hep hport
  have hms := materialize_success env st hs body h1 h2 h3 h4 h5
  have hinv1 : singleInstanceInv
      { st with dirs := Function.update st.dirs hs (some body) } := hinv
  have hstop := stop_success_inv env
    { st with dirs := Function.update st.dirs hs (some body) } h6 hinv1
  have hentry2 : (dirContents ({ st with
      dirs := Function.update st.dirs hs (some body),
      currentAppServer := none,
      running := ([] : List AppInstance) } : SrvState).dirs hs).contains ep = true := by
    show (dirContents (Function.update st.dirs hs (some body)) hs).contains ep = true
    have hc : dirContents (Function.update st.dirs hs (some body)) hs = body := by
      simp [dirContents, Function.update_same]
    rw [hc]
    exact hentry
  have hstart := startApp_success env
    { st with
      dirs := Function.update st.dirs hs (some body),
      currentAppServer := none,
      running := [] } hs p ep hentry2 h7 h8 h9
  rw [hsteps]
  simp [hms, hstop, hstart]

/-- C1 witness: a concrete successful deploy of version v1 on port 3000. -/
theorem c1_deploy_success_witness :
    singleInstanceInv st0 ∧ jsParseInt "3000" = some 3000 ∧
    ["index.js"].contains "index.js" = true ∧
    ((handleUpload env0 st0 hdrs1 ["index.js"]).1 = UploadResponse.ok "v1" 3000 ∧
     (handleUpload env0 st0 hdrs1 ["index.js"]).2.currentAppServer = some ⟨"v1", 3000⟩ ∧
     (handleUpload env0 st0 hdrs1 ["index.js"]).2.running = [⟨"v1", 3000⟩] ∧
     (handleUpload env0 st0 hdrs1 ["index.js"]).2.ledger =
       some (.valid ⟨"v1", 3000, "index.js", env0.now⟩)) :=
  ⟨rfl, by decide, by decide,
   c1_deploy_success env0 st0 "v1" "3000" "index.js" 3000 ["index.js"] rfl
     (by decide) (by decide) (by decide) (by decide) rfl rfl rfl rfl rfl rfl rfl rfl rfl
     (by decide)⟩

/-- C2: for every deploy that reaches the start step and fails there because
the entrypoint is absent from the extracted artifact, the module load fails,
or the port bind fails, the response is the 500 failure body, the Active
Instance slot is Empty afterwards, and the Ledger is unchanged from before
the deploy began. -/
theorem c2_start_failure_empty_slot (env : Env) (st : SrvState) (hs pt ep : String)
    (p : Int) (body : List String)
    (hh : hs ≠ "") (hpt : pt ≠ "") (hep : ep ≠ "")
    (hport : jsParseInt pt = some p)
    (h1 : env.tmpWriteOk = true) (h2 : env.rmDirOk = true) (h3 : env.mkdirOk = true)
    (h4 : env.extractOk = true) (h5 : env.rmTmpOk = true)
    (h6 : env.stopFails = false)
    (hstart : body.contains ep = false ∨ env.loadOk = false ∨ env.bindFails = true) :
    (handleUpload env st ⟨some hs, some pt, some ep⟩ body).1 = .serverError ∧
    (handleUpload env st ⟨some hs, some pt, some ep⟩ body).2.currentAppServer = none ∧
    (handleUpload env st ⟨some hs, some pt, some ep⟩ body).2.ledger = st.ledger :=
  ⟨(upload_start_failure env st hs pt ep p body hh hpt hep hport h1 h2 h3 h4 h5 h6
      hstart).1,
   (upload_start_failure env st hs pt ep p body hh hpt hep hport h1 h2 h3 h4 h5 h6
      hstart).2.1,
   (upload_start_failure env st hs pt ep p body hh hpt hep hport h1 h2 h3 h4 h5 h6
      hstart).2.2.1⟩

/-- C2 witness: deploying v1 over the active v0 instance with a failing port
bind leaves the slot Empty and the v0 ledger record in place. -/
theorem c2_start_failure_empty_slot_witness :
    jsParseInt "3000" = some 3000 ∧ envBindFail.bindFails = true ∧
    ((handleUpload envBindFail stActive hdrs1 ["index.js"]).1 = .serverError ∧
     (handleUpload envBindFail stActive hdrs1 ["index.js"]).2.currentAppServer = none ∧
     (handleUpload envBindFail stActive hdrs1 ["index.js"]).2.ledger = stActive.ledger) :=
  ⟨by decide, by decide,
   c2_start_failure_empty_slot envBindFail stActive "v1" "3000" "index.js" 3000
     ["index.js"] (by decide) (by decide) (by decide) (by decide) rfl rfl rfl rfl rfl rfl
     (Or.inr (Or.inr rfl))⟩

/-- C3 counterexample: with an active instance whose stop raises, the deploy
returns the 500 failure response and the start step never runs (the slot
still holds the old instance), contradicting the claim that a stop failure
is logged only and never causes the deploy to return a failure response. -/
theorem c3_counterexample :
    (handleUpload envStopFail stActive hdrs1 ["index.js"]).1 =
      UploadResponse.serverError ∧
    (handleUpload envStopFail stActive hdrs1 ["index.js"]).1.status = 500 ∧
    (handleUpload envStopFail stActive hdrs1 ["index.js"]).2.currentAppServer =
      some inst0 := by
  decide

/-- C3 amended: stopCurrentApp has no catch, so when stopping the current
Active Instance raises, the exception propagates out of the stop step: the
deploy aborts with the 500 failure response, the start step never runs, the
old handle stays in the slot with the old server still bound, and the Ledger
is unchanged. -/
theorem c3_stop_failure_aborts (env : Env) (st : SrvState) (hs pt ep : String)
    (p : Int) (body : List String) (inst : AppInstance)
    (hh : hs ≠ "") (hpt : pt ≠ "") (hep : ep ≠ "")
    (hport : jsParseInt pt = some p)
    (h1 : env.tmpWriteOk = true) (h2 : env.rmDirOk = true) (h3 : env.mkdirOk = true)
    (h4 : env.extractOk = true) (h5 : env.rmTmpOk = true)
    (hstop : env.stopFails = true)
    (hinst : st.currentAppServer = some inst) :
    (handleUpload env st ⟨some hs, some pt, some ep⟩ body).1 = .serverError ∧
    (handleUpload env st ⟨some hs, some pt, some ep⟩ body).2.currentAppServer =
      some inst ∧
    (handleUpload env st ⟨some hs, some pt, some ep⟩ body).2.running = st.running ∧
    (handleUpload env st ⟨some hs, some pt, some ep⟩ body).2.ledger = st.ledger := by
  obtain ⟨sl, cu, le, di, tm, ru⟩ := st
  dsimp only at hinst ⊢
  subst hinst
  have hsteps := handleUpload_steps env ⟨some inst, cu, le, di, tm, ru⟩ hs pt ep p body
    hh hpt hep hport
  have hms := materialize_success env ⟨some inst, cu, le, di, tm, ru⟩ hs body
    h1 h2 h3 h4 h5
  have hstopE : stopCurrentApp env ⟨some inst, cu, le, Function.update di hs (some body), tm, ru⟩ = .error ⟨some inst, cu, le, Function.update di hs (some body), tm, ru⟩ := by
    simp [stopCurrentApp, hstop]
  rw [hsteps]
  simp [hms, hstopE]

/-- C3 amended witness: the concrete aborted deploy from the counterexample
satisfies the amended statement. -/
theorem c3_stop_failure_aborts_witness :
    envStopFail.stopFails = true ∧ stActive.currentAppServer = some inst0 ∧
    ((handleUpload envStopFail stActive hdrs1 ["index.js"]).1 = .serverError ∧
     (handleUpload envStopFail stActive hdrs1 ["index.js"]).2.currentAppServer =
       some inst0 ∧
     (handleUpload envStopFail stActive hdrs1 ["index.js"]).2.running =
       stActive.running ∧
     (handleUpload envStopFail stActive hdrs1 ["index.js"]).2.ledger =
       stActive.ledger) :=
  ⟨rfl, rfl,
   c3_stop_failure_aborts envStopFail stActive "v1" "3000" "index.js" 3000
     ["index.js"] inst0 (by decide) (by decide) (by decide) (by decide) rfl rfl rfl rfl
     rfl rfl rfl⟩

/-- C5: when the uploaded version already has an Artifact Directory, the
materialization block removes it before extracting, so afterwards the
directory holds exactly the files of the new archive and no file of the
previous upload of that version survives unless it is also in the new
archive. -/
theorem c5_replace_directory (env : Env) (st : SrvState) (hash : String)
    (body : List String)
    (hexists : dirExists st.dirs hash = true)
    (h1 : env.tmpWriteOk = true) (h2 : env.rmDirOk = true) (h3 : env.mkdirOk = true)
    (h4 : env.extractOk = true) (h5 : env.rmTmpOk = true) :
    ∃ s1, materialize env st hash body = .ok s1 ∧
      dirContents s1.dirs hash = body ∧
      ∀ f, f ∈ dirContents st.dirs hash → f ∉ body → f ∉ dirContents s1.dirs hash := by
  refine ⟨_, materialize_success env st hash body h1 h2 h3 h4 h5, ?_, ?_⟩
  · show dirContents (Function.update st.dirs hash (some body)) hash = body
    simp [dirContents, Function.update_same]
  · intro f hmem hnb
    show f ∉ dirContents (Function.update st.dirs hash (some body)) hash
    have hc : dirContents (Function.update st.dirs hash (some body)) hash = body := by
      simp [dirContents, Function.update_same]
    rw [hc]
    exact hnb

/-- C5 witness: re-uploading v0 whose directory holds index.js with an
archive holding only app.js leaves exactly app.js in the directory. -/
theorem c5_replace_directory_witness :
    dirExists stActive.dirs "v0" = true ∧
    (∃ s1, materialize env0 stActive "v0" ["app.js"] = .ok s1 ∧
      dirContents s1.dirs "v0" = ["app.js"] ∧
      ∀ f, f ∈ dirContents stActive.dirs "v0" → f ∉ ["app.js"] →
        f ∉ dirContents s1.dirs "v0") :=
  ⟨by decide,
   c5_replace_directory env0 stActive "v0" ["app.js"] (by decide) rfl rfl rfl rfl rfl⟩

/-- C6: every upload request that lacks one of the three deploy headers, or
whose port header does not parse to an integer under the parseInt check, is
answered with a 400 plain-text reason and leaves the whole server state,
including the deployment directories, the running instance and the Ledger,
untouched. -/
theorem c6_invalid_headers_reject (env : Env) (st : SrvState) (hdrs : Headers)
    (body : List String)
    (hbad : jsFalsy hdrs.deployHash = true ∨ jsFalsy hdrs.deployPort = true ∨
      jsFalsy hdrs.deployEntrypoint = true ∨
      jsParseInt (hdrs.deployPort.getD "") = none) :
    (handleUpload env st hdrs body).1.status = 400 ∧
    (∃ r, (handleUpload env st hdrs body).1 = .badRequest r) ∧
    (handleUpload env st hdrs body).2 = st := by
  by_cases hf : (jsFalsy hdrs.deployHash || jsFalsy hdrs.deployPort ||
      jsFalsy hdrs.deployEntrypoint) = true
  · refine ⟨?_, ⟨"缺少必要的部署信息", ?_⟩, ?_⟩ <;>
      simp [handleUpload, hf, UploadResponse.status]
  · have hp : jsParseInt (hdrs.deployPort.getD "") = none := by
      rcases hbad with hb | hb | hb | hb
      · exact absurd (by simp [hb]) hf
      · exact absurd (by simp [hb]) hf
      · exact absurd (by simp [hb]) hf
      · exact hb
    rw [Bool.not_eq_true] at hf
    refine ⟨?_, ⟨"无效的端口号", ?_⟩, ?_⟩ <;>
      simp [handleUpload, hf, hp, UploadResponse.status]

/-- C6 witness: a request missing the port header gets a 400 and changes
nothing. -/
theorem c6_invalid_headers_reject_witness :
    jsFalsy (none : Option String) = true ∧
    ((handleUpload env0 stActive ⟨some "v1", none, some "index.js"⟩ ["index.js"]).1.status
        = 400 ∧
     (∃ r, (handleUpload env0 stActive ⟨some "v1", none, some "index.js"⟩
        ["index.js"]).1 = .badRequest r) ∧
     (handleUpload env0 stActive ⟨some "v1", none, some "index.js"⟩
        ["index.js"]).2 = stActive) :=
  ⟨rfl,
   c6_invalid_headers_reject env0 stActive ⟨some "v1", none, some "index.js"⟩
     ["index.js"] (Or.inr (Or.inl rfl))⟩

/-- C4 counterexample: when only the final ledger write fails, the deploy
answers with the 500 failure body while the new instance is bound and
serving, refuting the claim that a failure response implies no new active
instance. -/
theorem c4_counterexample :
    (handleUpload envPersistFail st0 hdrs1 ["index.js"]).1 =
      UploadResponse.serverError ∧
    (handleUpload envPersistFail st0 hdrs1 ["index.js"]).2.currentAppServer =
      some ⟨"v1", 3000⟩ ∧
    (handleUpload envPersistFail st0 hdrs1 ["index.js"]).2.running = [⟨"v1", 3000⟩] ∧
    (handleUpload envPersistFail st0 hdrs1 ["index.js"]).2.ledger = st0.ledger := by
  decide

/-- C4 amended: a success response guarantees the new instance is the single
active one and its descriptor is persisted, and any failure response
guarantees the Ledger was not updated; however a failure response does not
guarantee that no new instance is active, because a failing ledger write
after a successful start leaves the new instance serving. -/
theorem c4_outcomes_amended (env : Env) (st : SrvState) (hdrs : Headers)
    (body : List String) (h : String) (p : Int) (hinv : singleInstanceInv st) :
    ((handleUpload env st hdrs body).1 = UploadResponse.ok h p →
      (handleUpload env st hdrs body).2.currentAppServer = some ⟨h, p⟩ ∧
      (handleUpload env st hdrs body).2.running = [⟨h, p⟩] ∧
      (handleUpload env st hdrs body).2.ledger =
        some (.valid ⟨h, p, hdrs.deployEntrypoint.getD "", env.now⟩)) ∧
    ((handleUpload env st hdrs body).1 = UploadResponse.serverError →
      (handleUpload env st hdrs body).2.ledger = st.ledger) := by
  constructor
  · intro hres
    have hout := upload_ok_inv env st hdrs body h p
      (handleUpload env st hdrs body).1 (handleUpload env st hdrs body).2 hinv
      (@Prod.mk.eta _ _ (handleUpload env st hdrs body)).symm hres
    exact ⟨hout.1, hout.2.1, hout.2.2.1⟩
  · intro hres
    exact upload_error_ledger env st hdrs body
      (handleUpload env st hdrs body).1 (handleUpload env st hdrs body).2
      (@Prod.mk.eta _ _ (handleUpload env st hdrs body)).symm hres

/-- C4 amended witness: at a concrete successful deploy the success
direction of the amended statement yields the active instance and the
persisted descriptor. -/
theorem c4_outcomes_amended_witness :
    singleInstanceInv st0 ∧
    ((handleUpload env0 st0 hdrs1 ["index.js"]).2.currentAppServer =
      some ⟨"v1", 3000⟩ ∧
     (handleUpload env0 st0 hdrs1 ["index.js"]).2.running = [⟨"v1", 3000⟩] ∧
     (handleUpload env0 st0 hdrs1 ["index.js"]).2.ledger =
       some (.valid ⟨"v1", 3000, hdrs1.deployEntrypoint.getD "", env0.now⟩)) :=
  ⟨rfl, (c4_outcomes_amended env0 st0 hdrs1 ["index.js"] "v1" 3000 rfl).1 (by decide)⟩

/-- C7: at startup, when the ledger holds a record whose artifact directory
is present and the start path succeeds, recover activates exactly the
recorded descriptor; when the record is absent or unparseable, or its
directory is missing, recover leaves the state untouched, so the slot stays
Empty; recover is a total function, so no recovery failure escapes to the
control plane. -/
theorem c7_recovery (env : Env) (st : SrvState) :
    (∀ s : DeploymentState, loadDeploymentState st = some s →
      dirExists st.dirs s.hash = true →
      (dirContents st.dirs s.hash).contains s.entrypoint = true →
      env.loadOk = true → env.bindFails = false → env.persistOk = true →
      (recover env st).currentAppServer = some ⟨s.hash, s.port⟩ ∧
      (recover env st).currentDeploymentHash = some s.hash ∧
      (recover env st).ledger =
        some (.valid ⟨s.hash, s.port, s.entrypoint, env.now⟩)) ∧
    (loadDeploymentState st = none → recover env st = st) ∧
    (∀ s : DeploymentState, loadDeploymentState st = some s →
      dirExists st.dirs s.hash = false → recover env st = st) := by
  refine ⟨?_, ?_, ?_⟩
  · intro s hload hdir hentry hl hb hp
    have hstart := startApp_success env st s.hash s.port s.entrypoint hentry hl hb hp
    simp [recover, hload, hdir, hstart]
  · intro hload
    simp [recover, hload]
  · intro s hload hdir
    simp [recover, hload, hdir]

/-- C7 witness: recovery of the v0 record after a restart. -/
theorem c7_recovery_witness :
    loadDeploymentState stBoot =
      some ⟨"v0", 3000, "index.js", "2025-01-01T00:00:00.000Z"⟩ ∧
    ((recover env0 stBoot).currentAppServer = some ⟨"v0", 3000⟩ ∧
     (recover env0 stBoot).currentDeploymentHash = some "v0" ∧
     (recover env0 stBoot).ledger = some (.valid ⟨"v0", 3000, "index.js", env0.now⟩)) :=
  ⟨rfl,
   (c7_recovery env0 stBoot).1 ⟨"v0", 3000, "index.js", "2025-01-01T00:00:00.000Z"⟩
     rfl (by decide) (by decide) rfl rfl rfl⟩

/-- C8: the source has no mutual-exclusion region around the deploy critical
section, so the interleaving of two concurrent uploads that runs both stop
steps before either start step leaves two application servers bound at once,
while the serialized schedule leaves exactly one; this exhibits the race the
claim says a lock prevents. -/
theorem c8_unsynchronized_double_bind :
    ∃ t, Interleave (uploadCritical "v1" 3000) (uploadCritical "v2" 3001) t ∧
      (runActs st0 t).running = [⟨"v2", 3001⟩, ⟨"v1", 3000⟩] ∧
      (runActs st0 (uploadCritical "v1" 3000 ++ uploadCritical "v2" 3001)).running =
        [⟨"v2", 3001⟩] := by
  refine ⟨[DeployAct.stopAct, DeployAct.stopAct, DeployAct.startAct "v1" 3000,
    DeployAct.startAct "v2" 3001], ?_, ?_, ?_⟩
  · exact Interleave.left _ _ _ _ (Interleave.right _ _ _ _
      (Interleave.left _ _ _ _ (Interleave.right _ _ _ _ Interleave.nil)))
  · decide
  · decide

/-- C9: stopping the current instance clears only the handle and never the
current-deployment variable, so a deploy whose start step fails after the
stop leaves GET /status reporting the previous version hash with no instance
running; moreover no operation ever resets the variable to null once it is
set. -/
theorem c9_version_survives_stop (env : Env) (st : SrvState) (hs pt ep : String)
    (p : Int) (body : List String) (oldh : String)
    (hh : hs ≠ "") (hpt : pt ≠ "") (hep : ep ≠ "")
    (hport : jsParseInt pt = some p)
    (h1 : env.tmpWriteOk = true) (h2 : env.rmDirOk = true) (h3 : env.mkdirOk = true)
    (h4 : env.extractOk = true) (h5 : env.rmTmpOk = true) (h6 : env.stopFails = false)
    (hstart : body.contains ep = false ∨ env.loadOk = false ∨ env.bindFails = true)
    (hprev : st.currentDeploymentHash = some oldh) :
    statusResponse (handleUpload env st ⟨some hs, some pt, some ep⟩ body).2 =
      ⟨some oldh, 7899⟩ ∧
    (handleUpload env st ⟨some hs, some pt, some ep⟩ body).2.currentAppServer = none ∧
    (∀ e2 s s2, stopCurrentApp e2 s = .ok s2 →
      s2.currentDeploymentHash = s.currentDeploymentHash) ∧
    (∀ e2 s hd b, (handleUpload e2 s hd b).2.currentDeploymentHash = none →
      s.currentDeploymentHash = none) := by
  have hmain := upload_start_failure env st hs pt ep p body hh hpt hep hport
    h1 h2 h3 h4 h5 h6 hstart
  refine ⟨?_, hmain.2.1, ?_, ?_⟩
  · unfold statusResponse
    rw [hmain.2.2.2, hprev]
  · intro e2 s s2 hok
    have hsf := stop_frame e2 s
    rw [hok] at hsf
    simpa [exceptState] using hsf.1
  · intro e2 s hd b hnone
    exact upload_hash_none_mono e2 s hd b
      (handleUpload e2 s hd b).1 (handleUpload e2 s hd b).2
      (@Prod.mk.eta _ _ (handleUpload e2 s hd b)).symm hnone

/-- C9 witness: a failed bind after stopping v0 leaves status reporting v0
with an empty slot. -/
theorem c9_version_survives_stop_witness :
    stActive.currentDeploymentHash = some "v0" ∧ envBindFail.bindFails = true ∧
    statusResponse (handleUpload envBindFail stActive hdrs1 ["index.js"]).2 =
      ⟨some "v0", 7899⟩ ∧
    (handleUpload envBindFail stActive hdrs1 ["index.js"]).2.currentAppServer = none :=
  ⟨rfl, rfl,
   (c9_version_survives_stop envBindFail stActive "v1" "3000" "index.js" 3000
     ["index.js"] "v0" (by decide) (by decide) (by decide) (by decide) rfl rfl rfl rfl
     rfl rfl (Or.inr (Or.inr rfl)) rfl).1,
   (c9_version_survives_stop envBindFail stActive "v1" "3000" "index.js" 3000
     ["index.js"] "v0" (by decide) (by decide) (by decide) (by decide) rfl rfl rfl rfl
     rfl rfl (Or.inr (Or.inr rfl)) rfl).2.1⟩

/-- C10: a successful recover rewrites the ledger record through the same
saveDeploymentState path as a deploy, keeping the loaded hash, port and
entrypoint but replacing the timestamp with one generated at recovery time,
so recovery mutates the ledger whenever the clock has moved on. -/
theorem c10_recover_rewrites_ledger (env : Env) (st : SrvState) (s : DeploymentState)
    (hload : loadDeploymentState st = some s)
    (hdir : dirExists st.dirs s.hash = true)
    (hentry : (dirContents st.dirs s.hash).contains s.entrypoint = true)
    (hl : env.loadOk = true) (hb : env.bindFails = false) (hp : env.persistOk = true) :
    (recover env st).ledger = some (.valid ⟨s.hash, s.port, s.entrypoint, env.now⟩) ∧
    (env.now ≠ s.timestamp → (recover env st).ledger ≠ st.ledger) := by
  have hled : st.ledger = some (.valid s) := by
    unfold loadDeploymentState at hload
    cases hl2 : st.ledger with
    | none => rw [hl2] at hload; exact Option.noConfusion hload
    | some lf =>
      cases lf with
      | valid s2 =>
        rw [hl2] at hload
        simp at hload
        rw [hload]
      | corrupt =>
        rw [hl2] at hload
        simp at hload
  have hstart := startApp_success env st s.hash s.port s.entrypoint hentry hl hb hp
  have hrec : (recover env st).ledger =
      some (.valid ⟨s.hash, s.port, s.entrypoint, env.now⟩) := by
    simp [recover, hload, hdir, hstart]
  refine ⟨hrec, ?_⟩
  intro hne heq
  rw [hrec, hled] at heq
  simp only [Option.some.injEq, LedgerFile.valid.injEq] at heq
  exact hne (congrArg DeploymentState.timestamp heq)

/-- C10 witness: recovering the v0 record at a later clock value rewrites
the ledger with the fresh timestamp. -/
theorem c10_recover_rewrites_ledger_witness :
    loadDeploymentState stBoot =
      some ⟨"v0", 3000, "index.js", "2025-01-01T00:00:00.000Z"⟩ ∧
    env0.now ≠ "2025-01-01T00:00:00.000Z" ∧
    ((recover env0 stBoot).ledger = some (.valid ⟨"v0", 3000, "index.js", env0.now⟩) ∧
     (env0.now ≠ "2025-01-01T00:00:00.000Z" →
       (recover env0 stBoot).ledger ≠ stBoot.ledger)) :=
  ⟨rfl, by decide,
   c10_recover_rewrites_ledger env0 stBoot
     ⟨"v0", 3000, "index.js", "2025-01-01T00:00:00.000Z"⟩ rfl (by decide) (by decide)
     rfl rfl rfl⟩

end DeployBun
